import Mathlib

/-!
Verification development for the Ollama embedding-model speed testers.

The repository contains two near-duplicate benchmark drivers:

* `Variant_base/test_ollama_speed_pro.py` — synchronous, `requests` +
  `tenacity` retry decorator (here prefixed `B` / suffixed `B`).
* `Variant_reserv/test_ollama_embeddings.py` — asynchronous, `httpx`,
  hand-rolled retry loop with exponential backoff (here suffixed `A`).

The shallow embedding below models the network as an explicit stream of
attempt outcomes (`Nat → Attempt`): attempt `i` either yields an HTTP
response (status code plus parsed `embedding` field) or raises one of the
exception classes the Python code distinguishes.  Wall-clock time is
modelled by giving every attempt a rational `latency`; sleeps performed by
the code advance the clock by their literal argument.  Floats are modelled
as `ℚ`.  `statistics.stdev` (an irrational square root in general) is kept
as an explicit function parameter `sdev : List ℚ → ℚ`; the code only ever
relies on the guard `len(values) > 1` around it, never on its value, and
every theorem below is proved for an arbitrary `sdev`.
-/

namespace OllamaBench

/-! ### Shared numeric helpers (mirroring `statistics.mean` / `min` / `max` / `median`) -/

/-- `statistics.mean`.  The Python function raises on an empty list; both
call sites guard with non-emptiness, so the `[] ↦ 0` default is never
relevant. -/
def meanQ (l : List ℚ) : ℚ := l.sum / l.length

/-- Python builtin `min` on a non-empty list (`[] ↦ 0` is dead code at all
call sites). -/
def qmin : List ℚ → ℚ
  | [] => 0
  | x :: xs => xs.foldl min x

/-- Python builtin `max` on a non-empty list. -/
def qmax : List ℚ → ℚ
  | [] => 0
  | x :: xs => xs.foldl max x

/-- `statistics.median`: middle element of the sorted list, or the average
of the two middle elements for even length. -/
def medianQ (l : List ℚ) : ℚ :=
  let s := List.insertionSort (fun a b : ℚ => a ≤ b) l
  let n := s.length
  if n % 2 = 1 then s.getD (n / 2) 0
  else (s.getD (n / 2 - 1) 0 + s.getD (n / 2) 0) / 2

/-- The shared pool of sample texts (`TEST_TEXTS` in the async variant,
`EmbeddingTester.DEFAULT_TEST_TEXTS` in the sync variant — identical
contents). -/
def TEST_TEXTS : List String :=
  [ "Привет, мир! Как дела?"
  , "Это тестовый текст для проверки embedding моделей."
  , "Machine learning и искусственный интеллект развиваются очень быстро."
  , "Python - популярный язык программирования для научных вычислений."
  , "Docker контейнеризация позволяет упростить развертывание приложений."
  , "Open source программное обеспечение доступно для всех."
  , "Нейронные сети используются в различных областях ИИ."
  , "Векторные базы данных эффективны для поиска по сходству."
  , "Квантизация моделей снижает размер и увеличивает скорость."
  , "Embedding модели преобразуют текст в числовые векторы." ]

/-- `self.test_texts[i % len(self.test_texts)]`. -/
def textAt (i : Nat) : String := TEST_TEXTS.getD (i % TEST_TEXTS.length) ""

/-! ### Stable sorting: `List.insertionSort` by a key is the
position-refined lexicographic sort

Python's `sorted(xs, key=k)` is stable.  The model uses
`List.insertionSort (fun a b => k a ≤ k b)`, which is stable in the same
sense; the lemmas below make the stability explicit by proving this sort
equal to sorting index/value pairs by the key refined lexicographically
with the original position. -/

section StableSort

variable {α β : Type} [LinearOrder β]

/-- Comparison of key values, the relation handed to the sort. -/
def keyRel (key : α → β) : α → α → Prop := fun a b => key a ≤ key b

instance (key : α → β) : DecidableRel (keyRel key) :=
  fun a b => inferInstanceAs (Decidable (key a ≤ key b))

instance (key : α → β) : IsTotal α (keyRel key) :=
  ⟨fun a b => le_total (key a) (key b)⟩

instance (key : α → β) : IsTrans α (keyRel key) :=
  ⟨fun _ _ _ h1 h2 => le_trans h1 h2⟩

/-- Key comparison refined by original position: strictly smaller key, or
equal key and not originally later. -/
def lexRel (key : α → β) : Nat × α → Nat × α → Prop :=
  fun p q => key p.2 < key q.2 ∨ (key p.2 = key q.2 ∧ p.1 ≤ q.1)

instance (key : α → β) : DecidableRel (lexRel key) := fun p q => by
  unfold lexRel; infer_instance

instance (key : α → β) : IsTotal (Nat × α) (lexRel key) := ⟨by
  intro p q
  rcases lt_trichotomy (key p.2) (key q.2) with h | h | h
  · exact Or.inl (Or.inl h)
  · rcases Nat.le_total p.1 q.1 with hn | hn
    · exact Or.inl (Or.inr ⟨h, hn⟩)
    · exact Or.inr (Or.inr ⟨h.symm, hn⟩)
  · exact Or.inr (Or.inl h)⟩

instance (key : α → β) : IsTrans (Nat × α) (lexRel key) := ⟨by
  intro p q r hpq hqr
  rcases hpq with h1 | ⟨e1, n1⟩
  · rcases hqr with h2 | ⟨e2, _⟩
    · exact Or.inl (h1.trans h2)
    · exact Or.inl (lt_of_lt_of_le h1 (le_of_eq e2))
  · rcases hqr with h2 | ⟨e2, n2⟩
    · exact Or.inl (lt_of_le_of_lt (le_of_eq e1) h2)
    · exact Or.inr ⟨e1.trans e2, n1.trans n2⟩⟩

theorem le_fst_of_mem_enumFrom :
    ∀ (l : List α) (n : Nat) (p : Nat × α), p ∈ l.enumFrom n → n ≤ p.1
  | [], _, _, h => absurd h (List.not_mem_nil _)
  | a :: l, n, p, h => by
    rcases List.mem_cons.mp h with h | h
    · subst h; exact Nat.le_refl n
    · exact Nat.le_of_succ_le (le_fst_of_mem_enumFrom l (n + 1) p h)

theorem enumFrom_map_snd : ∀ (l : List α) (n : Nat), (l.enumFrom n).map Prod.snd = l
  | [], _ => rfl
  | a :: l, n => by
    simp only [List.enumFrom, List.map_cons, enumFrom_map_snd l (n + 1)]

theorem orderedInsert_map_snd (key : α → β) (n : Nat) (a : α) :
    ∀ (L : List (Nat × α)), (∀ p ∈ L, n < p.1) →
      (L.orderedInsert (lexRel key) (n, a)).map Prod.snd
        = (L.map Prod.snd).orderedInsert (keyRel key) a
  | [], _ => rfl
  | q :: L, h => by
    have hq : n < q.1 := h q (List.mem_cons_self q L)
    by_cases hr : keyRel key a q.2
    · have hl : lexRel key (n, a) q := by
        rcases lt_or_eq_of_le hr with h' | h'
        · exact Or.inl h'
        · exact Or.inr ⟨h', Nat.le_of_lt hq⟩
      simp only [List.orderedInsert]
      rw [if_pos hl, if_pos hr]
      rfl
    · have hl : ¬ lexRel key (n, a) q := by
        intro hc
        rcases hc with h' | ⟨h', _⟩
        · exact hr (le_of_lt h')
        · exact hr (le_of_eq h')
      simp only [List.orderedInsert]
      rw [if_neg hl, if_neg hr]
      simp only [List.map_cons]
      rw [orderedInsert_map_snd key n a L (fun p hp => h p (List.mem_cons_of_mem q hp))]

theorem insertionSort_enumFrom (key : α → β) :
    ∀ (l : List α) (n : Nat),
      (List.insertionSort (lexRel key) (l.enumFrom n)).map Prod.snd
        = List.insertionSort (keyRel key) l
  | [], _ => rfl
  | a :: l, n => by
    have hmem : ∀ p ∈ List.insertionSort (lexRel key) (l.enumFrom (n + 1)), n < p.1 := by
      intro p hp
      have hp' : p ∈ l.enumFrom (n + 1) :=
        (List.perm_insertionSort (lexRel key) (l.enumFrom (n + 1))).mem_iff.mp hp
      exact Nat.lt_of_succ_le (le_fst_of_mem_enumFrom l (n + 1) p hp')
    show ((List.insertionSort (lexRel key) ((n, a) :: l.enumFrom (n + 1))).map Prod.snd) = _
    rw [List.insertionSort,
      orderedInsert_map_snd key n a _ hmem, insertionSort_enumFrom key l (n + 1)]
    rfl

/-- The stable sort of `l` by `key`, written as specified: pair every
element with its original position, sort lexicographically by
(key, original position), drop the positions. -/
def stableSortByKey (key : α → β) (l : List α) : List α :=
  (List.insertionSort (lexRel key) l.enum).map Prod.snd

/-- The sort performed by the summaries (insertion sort by key alone)
computes exactly the stable, position-tie-broken sort. -/
theorem insertionSort_eq_stableSortByKey (key : α → β) (l : List α) :
    List.insertionSort (keyRel key) l = stableSortByKey key l :=
  (insertionSort_enumFrom key l 0).symm

theorem enum_map_snd {α : Type} (l : List α) : l.enum.map Prod.snd = l :=
  enumFrom_map_snd l 0

theorem stableSortByKey_perm (key : α → β) (l : List α) :
    (stableSortByKey key l).Perm l := by
  have h := (List.perm_insertionSort (lexRel key) l.enum).map Prod.snd
  unfold stableSortByKey
  rwa [enum_map_snd l] at h

theorem stableSortByKey_pairwise (key : α → β) (l : List α) :
    (stableSortByKey key l).Pairwise (fun a b => key a ≤ key b) := by
  have h := List.sorted_insertionSort (lexRel key) l.enum
  unfold stableSortByKey
  exact List.Pairwise.map Prod.snd
    (fun {p q} hpq => by
      rcases hpq with h' | ⟨h', _⟩
      · exact le_of_lt h'
      · exact le_of_eq h') h

end StableSort

/-! ### Async variant (`Variant_reserv/test_ollama_embeddings.py`) -/

/-- Outcome of one raw `httpx` POST to `/api/embeddings`:
either a completed HTTP response (status code, response text used for
error messages, and the parsed `embedding` field of the JSON body,
defaulting to `[]`), or one of the exception classes distinguished by
`OllamaClient.get_embedding`. -/
inductive AResult where
  | http (status : Nat) (text : String) (embedding : List ℚ)
  | timeoutExc
  | httpExc (msg : String)
  | otherExc (msg : String)
deriving DecidableEq

/-- One network attempt: its wall-clock latency and its outcome. -/
structure AsyncAttempt where
  latency : ℚ
  res : AResult
deriving DecidableEq

/-- The body of the `try`/`except` in `OllamaClient.get_embedding`:
a 200 response returns the parsed embedding, anything else produces the
`last_error` string recorded by the corresponding branch. -/
def classifyAttempt (timeout : Nat) : AResult → Except String (List ℚ)
  | AResult.http s text emb =>
      if s = 200 then Except.ok emb
      else Except.error ("HTTP " ++ toString s ++ ": " ++ text.take 200)
  | AResult.timeoutExc => Except.error ("Timeout after " ++ toString timeout ++ "s")
  | AResult.httpExc m => Except.error ("HTTP Error: " ++ m)
  | AResult.otherExc m => Except.error ("Unexpected error: " ++ m)

/-- The retry loop of `OllamaClient.get_embedding`.  `fuel` is the number
of attempts still available (`retries - i`), `i` the 0-based attempt
index, `elapsed` the wall-clock time since `start_time`.  A failed attempt
that is not the last one is followed by `await asyncio.sleep(2 ** attempt)`.
Returns `(embedding, duration, error_message)` exactly like the Python
method. -/
def getEmbeddingAux (atts : Nat → AsyncAttempt) (timeout : Nat) :
    Nat → Nat → ℚ → Option (List ℚ) × ℚ × Option String
  | 0, _, elapsed => (none, elapsed, none)
  | 1, i, elapsed =>
    let t := elapsed + (atts i).latency
    match classifyAttempt timeout (atts i).res with
    | Except.ok emb => (some emb, t, none)
    | Except.error m => (none, t, some m)
  | fuel + 2, i, elapsed =>
    let t := elapsed + (atts i).latency
    match classifyAttempt timeout (atts i).res with
    | Except.ok emb => (some emb, t, none)
    | Except.error _ => getEmbeddingAux atts timeout (fuel + 1) (i + 1) (t + 2 ^ i)

/-- `OllamaClient.get_embedding(model, prompt, retries)`:
`(embedding, duration, error_message)` with the duration measured from
before the first attempt. -/
def getEmbeddingA (retries timeout : Nat) (atts : Nat → AsyncAttempt) :
    Option (List ℚ) × ℚ × Option String :=
  getEmbeddingAux atts timeout retries 0 0

/-- `EmbeddingMetrics` (async variant).  The `timestamp` field (a
wall-clock string with a `datetime.now()` default) is omitted. -/
structure EmbeddingMetricsA where
  success : Bool
  duration : ℚ
  text_length : Nat
  embedding_dim : Option Nat := none
  tokens_per_second : Option ℚ := none
  error_message : Option String := none
deriving DecidableEq

/-- `EmbeddingTester.test_single_embedding` (async variant).  Note the
Python truthiness test `if embedding:\x20` accepts only a *non-empty*
returned vector as success. -/
def testSingleEmbeddingA (maxRetries timeout : Nat) (atts : Nat → AsyncAttempt)
    (text : String) : EmbeddingMetricsA :=
  let r := getEmbeddingA maxRetries timeout atts
  match r.1 with
  | some (x :: xs) =>
      { success := true
        duration := r.2.1
        text_length := text.length
        embedding_dim := some (x :: xs).length
        tokens_per_second := some (if 0 < r.2.1 then ((x :: xs).length : ℚ) / r.2.1 else 0)
        error_message := none }
  | _ =>
      { success := false
        duration := r.2.1
        text_length := text.length
        embedding_dim := none
        tokens_per_second := none
        error_message := r.2.2 }

/-- `TestStatus` (async variant). -/
inductive TestStatusA where
  | SUCCESS
  | FAILED
  | ERROR
  | TIMEOUT
  | SKIPPED
deriving DecidableEq

/-- `ModelTestResult` (async variant). -/
structure ModelTestResultA where
  model_name : String
  status : TestStatusA
  total_tests : Nat
  successful_tests : Nat
  failed_tests : Nat
  avg_duration : Option ℚ := none
  min_duration : Option ℚ := none
  max_duration : Option ℚ := none
  median_duration : Option ℚ := none
  std_duration : Option ℚ := none
  avg_embedding_dim : Option ℤ := none
  avg_tokens_per_second : Option ℚ := none
  model_size : Option String := none
  error_summary : Option String := none
  individual_metrics : List EmbeddingMetricsA := []
deriving DecidableEq

instance : Inhabited ModelTestResultA :=
  ⟨{ model_name := "", status := TestStatusA.ERROR, total_tests := 0,
     successful_tests := 0, failed_tests := 0 }⟩

/-- `TestConfig` (async variant).  Only the fields the modelled code paths
read are kept. -/
structure TestConfigA where
  ollama_url : String := "http://localhost:11434"
  timeout : Nat := 180
  max_retries : Nat := 3
  tests_per_model : Nat := 5
  warmup_requests : Nat := 1
  interval_between_tests : Nat := 3
  check_docker : Bool := true
deriving DecidableEq

/-- Awaited calls performed by `EmbeddingTester.test_model`: one
`get_embedding` probe (its internal retries and backoff abstracted inside
the probe), or one explicit `asyncio.sleep`. -/
inductive EventA where
  | probe (model text : String)
  | pause (secs : ℚ)
deriving DecidableEq

/-- The list of timed sample measurements collected by the async
`test_model`: sample `i` probes with the `(warmup_requests + i)`-th
`get_embedding` call of the model and cycles through the text pool. -/
def metricsA (cfg : TestConfigA) (beh : Nat → Nat → AsyncAttempt) : List EmbeddingMetricsA :=
  (List.range cfg.tests_per_model).map
    (fun i => testSingleEmbeddingA cfg.max_retries cfg.timeout
      (beh (cfg.warmup_requests + i)) (textAt i))

/-- The `FAILED` `ModelTestResult` assembled by the async `test_model`
when no sample succeeded (`"; ".join(set(error_messages))`, whose
unspecified `set` iteration order is modelled as first-occurrence order). -/
def failedResultA (model : String) (metrics : List EmbeddingMetricsA) : ModelTestResultA :=
  let failed := metrics.filter (fun m => !m.success)
  let errorMessages := failed.filterMap (fun m => m.error_message)
  { model_name := model
    status := TestStatusA.FAILED
    total_tests := metrics.length
    successful_tests := 0
    failed_tests := failed.length
    error_summary := some (if errorMessages.isEmpty then "All tests failed"
      else String.intercalate "; " errorMessages.eraseDups)
    individual_metrics := metrics }

/-- The `SUCCESS` `ModelTestResult` assembled by the async `test_model`.
Python truthiness: `if m.embedding_dim` drops both `None` and `0`,
`if m.tokens_per_second` drops `None` and `0.0`; `int(...)` on the
positive mean dimensionality is the floor. -/
def successResultA (model : String) (sdev : List ℚ → ℚ)
    (metrics : List EmbeddingMetricsA) : ModelTestResultA :=
  let successful := metrics.filter (fun m => m.success)
  let failed := metrics.filter (fun m => !m.success)
  let durations := successful.map (fun m => m.duration)
  let dims := successful.filterMap (fun m =>
    match m.embedding_dim with
    | some d => if d = 0 then none else some (d : ℚ)
    | none => none)
  let tps := successful.filterMap (fun m =>
    match m.tokens_per_second with
    | some v => if v = 0 then none else some v
    | none => none)
  { model_name := model
    status := TestStatusA.SUCCESS
    total_tests := metrics.length
    successful_tests := successful.length
    failed_tests := failed.length
    avg_duration := some (meanQ durations)
    min_duration := some (qmin durations)
    max_duration := some (qmax durations)
    median_duration := some (medianQ durations)
    std_duration := some (if 1 < durations.length then sdev durations else 0)
    avg_embedding_dim := if dims.isEmpty then none else some ⌊meanQ dims⌋
    avg_tokens_per_second := if tps.isEmpty then none else some (meanQ tps)
    individual_metrics := metrics }

/-- `EmbeddingTester.test_model` (async variant).  `beh k` is the attempt
stream seen by the `k`-th `get_embedding` call of this model: calls
`0, …, warmup_requests - 1` are the warm-up probes, call
`warmup_requests + i` is timed sample `i`.  Returns the aggregated
`ModelTestResult` together with the ordered trace of awaited calls. -/
def testModelFullA (cfg : TestConfigA) (beh : Nat → Nat → AsyncAttempt)
    (model : String) (sdev : List ℚ → ℚ) : ModelTestResultA × List EventA :=
  let warmupEvents :=
    (List.range cfg.warmup_requests).flatMap
      (fun _ => [EventA.probe model (textAt 0), EventA.pause 1])
  let metrics := metricsA cfg beh
  let mainEvents :=
    (List.range cfg.tests_per_model).flatMap
      (fun i => EventA.probe model (textAt i) ::
        (if i + 1 < cfg.tests_per_model
         then [EventA.pause (cfg.interval_between_tests : ℚ)] else []))
  let events := warmupEvents ++ mainEvents
  if (metrics.filter (fun m => m.success)).isEmpty then
    (failedResultA model metrics, events)
  else
    (successResultA model sdev metrics, events)

/-- The `ModelTestResult` computed by the async `test_model`. -/
def testModelA (cfg : TestConfigA) (beh : Nat → Nat → AsyncAttempt)
    (model : String) (sdev : List ℚ → ℚ) : ModelTestResultA :=
  (testModelFullA cfg beh model sdev).1

/-- The ordered trace of awaited calls of the async `test_model`. -/
def testModelEventsA (cfg : TestConfigA) (model : String) : List EventA :=
  (testModelFullA cfg (fun _ _ => { latency := 0, res := AResult.timeoutExc })
    model (fun _ => 0)).2

/-- One entry of the async summary rankings (a dict in the source). -/
structure RankEntryA where
  rank : Nat
  model : String
  avg_duration : Option ℚ
  embedding_dim : Option ℤ
deriving DecidableEq

/-- The async summary dict. -/
structure SummaryA where
  total_models : Nat
  successful_models : Nat
  failed_models : Nat
  fastest_model : Option String
  highest_quality_model : Option String
  ranking_by_speed : List RankEntryA
  ranking_by_quality : List RankEntryA
deriving DecidableEq

/-- Sort key of `sorted(successful, key=lambda x: x.avg_duration or float("inf"))`:
Python `or` replaces both `None` and the falsy `0.0` by `+∞`. -/
def speedKeyA (r : ModelTestResultA) : WithTop ℚ :=
  match r.avg_duration with
  | some d => if d = 0 then ⊤ else (d : WithTop ℚ)
  | none => ⊤

/-- Sort key of the quality ranking: `x.avg_embedding_dim or 0`. -/
def qualityKeyA (r : ModelTestResultA) : ℚ :=
  match r.avg_embedding_dim with
  | some d => if d = 0 then 0 else (d : ℚ)
  | none => 0

/-- `EmbeddingTester._create_summary` (async variant).  Python's `sorted`
is a stable sort; it is modelled by `List.insertionSort`, which inserts
every element after the already-placed elements its key ties with. -/
def createSummaryA (results : List ModelTestResultA) : SummaryA :=
  let successful := results.filter (fun r => r.status = TestStatusA.SUCCESS)
  let sortedBySpeed :=
    List.insertionSort (keyRel speedKeyA) successful
  let sortedByQuality :=
    List.insertionSort (fun a b => qualityKeyA b ≤ qualityKeyA a) successful
  { total_models := results.length
    successful_models := successful.length
    failed_models := (results.filter (fun r => ¬ r.status = TestStatusA.SUCCESS)).length
    fastest_model := sortedBySpeed.head?.map (fun r => r.model_name)
    highest_quality_model := sortedByQuality.head?.map (fun r => r.model_name)
    ranking_by_speed := sortedBySpeed.enum.map (fun p =>
      { rank := p.1 + 1, model := p.2.model_name,
        avg_duration := p.2.avg_duration, embedding_dim := p.2.avg_embedding_dim })
    ranking_by_quality := sortedByQuality.enum.map (fun p =>
      { rank := p.1 + 1, model := p.2.model_name,
        avg_duration := p.2.avg_duration, embedding_dim := p.2.avg_embedding_dim }) }

/-- `TestReport` (async variant).  `docker_status` is reduced to the two
booleans the control flow reads. -/
structure TestReportA where
  timestamp : String
  config : TestConfigA
  docker_status : Option (Bool × Bool)
  results : List ModelTestResultA
  summary : SummaryA
  duration_seconds : ℚ
deriving DecidableEq

/-- The `ModelTestResult` the async orchestrator builds when
`test_model` raises (`except Exception as e` branch of `run_tests`). -/
def errorResultA (cfg : TestConfigA) (model : String) (msg : String) : ModelTestResultA :=
  { model_name := model
    status := TestStatusA.ERROR
    total_tests := cfg.tests_per_model
    successful_tests := 0
    failed_tests := cfg.tests_per_model
    error_summary := some msg }

/-- Result appended for one model by the `for model in models_to_test`
loop of the async `run_tests`: the runner's result, or an `ERROR` result
built from the raised exception's message. -/
def convertA (cfg : TestConfigA) (runner : String → Except String ModelTestResultA)
    (m : String) : ModelTestResultA :=
  match runner m with
  | Except.ok r => r
  | Except.error e => errorResultA cfg m e

/-- `EmbeddingTester.run_tests` (async variant).  The exceptions it can
raise (`RuntimeError`) are modelled by their messages.  `runner` stands
for the awaited `test_model` call, which the `try`/`except Exception`
converts into an `ERROR` result on failure; `models` is the already
resolved `config.models or DEFAULT_MODELS` list; `now` and `runDuration`
stand for the wall clock readings. -/
def runTestsA (cfg : TestConfigA) (dockerInstalled containerRunning healthOk : Bool)
    (runner : String → Except String ModelTestResultA) (models : List String)
    (now : String) (runDuration : ℚ) : Except String TestReportA :=
  if cfg.check_docker && !dockerInstalled then
    Except.error "Docker is not installed"
  else if cfg.check_docker && !containerRunning then
    Except.error "Ollama container 'ollama' is not running"
  else if !healthOk then
    Except.error ("Cannot connect to Ollama at " ++ cfg.ollama_url)
  else
    let results := models.foldl (fun acc m => acc ++ [convertA cfg runner m]) []
    Except.ok
      { timestamp := now
        config := cfg
        docker_status := if cfg.check_docker then some (dockerInstalled, containerRunning) else none
        results := results
        summary := createSummaryA results
        duration_seconds := runDuration }

/-! ### Sync variant (`Variant_base/test_ollama_speed_pro.py`) -/

/-- Exception classes that can reach `EmbeddingTester.test_single_embedding`
in the sync variant: `requests.RequestException`, `TimeoutError`, and the
module's own `OllamaConnectionError` raised by
`OllamaClient._make_request` when `tenacity` exhausts its retries. -/
inductive SyncExc where
  | requestException (msg : String)
  | timeoutError (msg : String)
  | ollamaConnectionError (msg : String)
deriving DecidableEq

/-- `str(e)` for a modelled exception. -/
def SyncExc.msg : SyncExc → String
  | SyncExc.requestException m => m
  | SyncExc.timeoutError m => m
  | SyncExc.ollamaConnectionError m => m

/-- A completed HTTP response as `_make_request` sees it: its status code
and, for the `/api/embeddings` endpoint, the parsed `embedding` field of
`response.json()` (defaulting to `[]`, as in `response.get("embedding", [])`). -/
structure RespB where
  status : Nat
  embedding : List ℚ := []
deriving DecidableEq

/-- Outcome of one raw `requests` call inside the `tenacity`-decorated
`_do_request`. -/
inductive SyncARes where
  | ok (resp : RespB)
  | reqExc (msg : String)
  | timeoutExc (msg : String)
deriving DecidableEq

/-- One sync attempt: latency plus outcome. -/
structure SyncAttempt where
  latency : ℚ
  res : SyncARes
deriving DecidableEq

/-- One `_do_request` body: perform the call, then `raise_for_status()`
(4xx/5xx become a retryable `requests.HTTPError`, modelled by its message). -/
def doRequestB : SyncARes → Except String RespB
  | SyncARes.ok r => if 400 ≤ r.status then Except.error ("HTTP " ++ toString r.status) else Except.ok r
  | SyncARes.reqExc m => Except.error m
  | SyncARes.timeoutExc m => Except.error m

/-- Sleep inserted by `tenacity.wait_exponential(multiplier=1, min=2, max=10)`
before retry number `n`. -/
def tenacityWait (n : Nat) : ℚ := min 10 (max 2 (2 ^ n))

/-- Message of the `OllamaConnectionError` raised in `_make_request` when
`tenacity` gives up (`f"Failed to connect to Ollama: {e}"` with `e` the
`RetryError`; the embedded `RetryError` rendering is kept symbolic). -/
def connFailMsg : String := "Failed to connect to Ollama: RetryError"

/-- The `tenacity` retry loop of `OllamaClient._make_request`:
`stop_after_attempt(max_retries)` attempts, every `requests.RequestException`
or `TimeoutError` retried after an exponential wait, exhaustion converted
into an `OllamaConnectionError`.  Returns the outcome together with the
elapsed wall-clock time. -/
def makeRequestAux (atts : Nat → SyncAttempt) :
    Nat → Nat → ℚ → Except SyncExc RespB × ℚ
  | 0, _, elapsed => (Except.error (SyncExc.ollamaConnectionError connFailMsg), elapsed)
  | 1, i, elapsed =>
    let t := elapsed + (atts i).latency
    match doRequestB (atts i).res with
    | Except.ok r => (Except.ok r, t)
    | Except.error _ => (Except.error (SyncExc.ollamaConnectionError connFailMsg), t)
  | fuel + 2, i, elapsed =>
    let t := elapsed + (atts i).latency
    match doRequestB (atts i).res with
    | Except.ok r => (Except.ok r, t)
    | Except.error _ => makeRequestAux atts (fuel + 1) (i + 1) (t + tenacityWait (i + 1))

/-- `OllamaClient._make_request` with its elapsed time. -/
def makeRequestB (maxRetries : Nat) (atts : Nat → SyncAttempt) :
    Except SyncExc RespB × ℚ :=
  makeRequestAux atts maxRetries 0 0

/-- `OllamaClient.health_check`: `GET /api/tags`, `status == 200`;
only `requests.RequestException` is caught and turned into `False`, so an
`OllamaConnectionError` escaping `_make_request` escapes `health_check`
as well. -/
def healthCheckB (maxRetries : Nat) (atts : Nat → SyncAttempt) : Except SyncExc Bool :=
  match (makeRequestB maxRetries atts).1 with
  | Except.ok r => Except.ok (r.status == 200)
  | Except.error (SyncExc.requestException _) => Except.ok false
  | Except.error e => Except.error e

/-- `EmbeddingResult` (sync variant). -/
structure EmbeddingResultB where
  success : Bool
  duration : ℚ
  text_length : Option Nat := none
  embedding_dim : Option Nat := none
  tokens_per_second : Option ℚ := none
  error : Option String := none
  model : Option String := none
  text : Option String := none
deriving DecidableEq

/-- `text[:50] + "..." if len(text) > 50 else text`. -/
def truncate50 (t : String) : String :=
  if 50 < t.length then t.take 50 ++ "..." else t

/-- `EmbeddingTester.test_single_embedding` (sync variant).  The `try`
block catches only `requests.RequestException` and `TimeoutError`; an
`OllamaConnectionError` (exhausted retries inside `_make_request`)
propagates to the caller, hence the `Except` result type. -/
def testSingleEmbeddingB (maxRetries timeout : Nat) (atts : Nat → SyncAttempt)
    (model text : String) : Except SyncExc EmbeddingResultB :=
  let r := makeRequestB maxRetries atts
  match r.1 with
  | Except.ok resp =>
      let emb := resp.embedding
      let dim := if emb.isEmpty then 0 else emb.length
      Except.ok
        { success := true
          duration := r.2
          text_length := some text.length
          embedding_dim := some dim
          tokens_per_second := some (if 0 < dim ∧ 0 < r.2 then (dim : ℚ) / r.2 else 0)
          model := some model
          text := some (truncate50 text) }
  | Except.error (SyncExc.requestException m) =>
      Except.ok
        { success := false
          duration := r.2
          error := some m
          model := some model
          text := some (truncate50 text) }
  | Except.error (SyncExc.timeoutError _) =>
      Except.ok
        { success := false
          duration := r.2
          error := some ("Timeout after " ++ toString timeout ++ "s")
          model := some model
          text := some (truncate50 text) }
  | Except.error e => Except.error e

/-- `ModelTestResult` (sync variant; note: it has no `failed_tests` field). -/
structure ModelTestResultB where
  model : String
  status : String
  total_tests : Nat
  successful_tests : Nat
  avg_duration : Option ℚ := none
  min_duration : Option ℚ := none
  max_duration : Option ℚ := none
  std_duration : Option ℚ := none
  avg_embedding_dim : Option ℚ := none
  avg_tokens_per_second : Option ℚ := none
  model_info : Option RespB := none
  error : Option String := none
  individual_results : List EmbeddingResultB := []
deriving DecidableEq

instance : Inhabited ModelTestResultB :=
  ⟨{ model := "", status := "ERROR", total_tests := 0, successful_tests := 0 }⟩

/-- `TestConfig` (sync variant). -/
structure TestConfigB where
  ollama_url : String := "http://localhost:11434"
  timeout : Nat := 120
  max_retries : Nat := 3
  retry_delay : Nat := 5
  tests_per_model : Nat := 5
  interval_between_tests : Nat := 2
deriving DecidableEq

/-- The statistics dict returned by `EmbeddingTester._calculate_stats`
(sync variant). -/
structure StatsB where
  mean : ℚ
  min : ℚ
  max : ℚ
  std : ℚ
deriving DecidableEq

/-- `EmbeddingTester._calculate_stats`: `statistics.stdev` is invoked only
when more than one value is present, otherwise `std = 0.0`. -/
def calculateStatsB (sdev : List ℚ → ℚ) (values : List ℚ) : StatsB :=
  if values.isEmpty then { mean := 0, min := 0, max := 0, std := 0 }
  else
    { mean := meanQ values
      min := qmin values
      max := qmax values
      std := if 1 < values.length then sdev values else 0 }

/-- Sequential for-loop collection in the `Except` monad: run
`f 0, f 1, …, f (n-1)` in order, stop at (and propagate) the first
raised exception. -/
def collectE {ε β : Type} (f : Nat → Except ε β) : Nat → Except ε (List β)
  | 0 => Except.ok []
  | n + 1 =>
    match collectE f n, f n with
    | Except.ok l, Except.ok b => Except.ok (l ++ [b])
    | Except.error e, _ => Except.error e
    | Except.ok _, Except.error e => Except.error e

/-- The `SUCCESS` `ModelTestResult` assembled at the end of the sync
`test_model`.  Python truthiness again: `if r.embedding_dim` drops both
`None` and `0`, `if r.tokens_per_second` drops `None` and `0.0`. -/
def successResultB (cfg : TestConfigB) (sdev : List ℚ → ℚ) (model : String)
    (results successfulResults : List EmbeddingResultB) (info : Option RespB) :
    ModelTestResultB :=
  let durations := successfulResults.map (fun r => r.duration)
  let dims := successfulResults.filterMap (fun r =>
    match r.embedding_dim with
    | some d => if d = 0 then none else some (d : ℚ)
    | none => none)
  let tps := successfulResults.filterMap (fun r =>
    match r.tokens_per_second with
    | some v => if v = 0 then none else some v
    | none => none)
  let durationStats := calculateStatsB sdev durations
  { model := model
    status := "SUCCESS"
    total_tests := cfg.tests_per_model
    successful_tests := successfulResults.length
    avg_duration := some durationStats.mean
    min_duration := some durationStats.min
    max_duration := some durationStats.max
    std_duration := some durationStats.std
    avg_embedding_dim := if dims.isEmpty then none else some (calculateStatsB sdev dims).mean
    avg_tokens_per_second := if tps.isEmpty then none else some (calculateStatsB sdev tps).mean
    model_info := info
    individual_results := results }

/-- `EmbeddingTester.test_model` (sync variant).  `embedAtts i` is the
attempt stream of the `i`-th `test_single_embedding` call, `infoAtts` the
attempt stream of the final `get_model_info` call; `time.sleep` between
samples has no observable effect here and is not recorded.  Exceptions
escaping `test_single_embedding`, and an `OllamaConnectionError` escaping
`get_model_info` (whose `except` clause catches only
`requests.RequestException`), propagate out of `test_model`. -/
def testModelB (cfg : TestConfigB) (embedAtts : Nat → Nat → SyncAttempt)
    (infoAtts : Nat → SyncAttempt) (model : String) (sdev : List ℚ → ℚ) :
    Except SyncExc ModelTestResultB :=
  match collectE (fun i => testSingleEmbeddingB cfg.max_retries cfg.timeout
      (embedAtts i) model (textAt i)) cfg.tests_per_model with
  | Except.error e => Except.error e
  | Except.ok results =>
    let successfulResults := results.filter (fun r => r.success)
    if successfulResults.isEmpty then
      Except.ok
        { model := model
          status := "FAILED"
          total_tests := cfg.tests_per_model
          successful_tests := 0
          error := some "All tests failed"
          individual_results := results }
    else
      match (makeRequestB cfg.max_retries infoAtts).1 with
      | Except.ok info =>
          Except.ok (successResultB cfg sdev model results successfulResults (some info))
      | Except.error (SyncExc.requestException _) =>
          Except.ok (successResultB cfg sdev model results successfulResults none)
      | Except.error e => Except.error e

/-- One entry of the sync summary rankings (a dict in the source). -/
structure RankEntryB where
  rank : Nat
  model : String
  avg_duration : Option ℚ
  embedding_dim : Option ℚ
  tokens_per_second : Option ℚ
deriving DecidableEq

/-- `TestSummary` (sync variant). -/
structure TestSummaryB where
  total_models : Nat
  successful_models : Nat
  failed_models : Nat
  ranking_by_speed : List RankEntryB
  ranking_by_quality : List RankEntryB
deriving DecidableEq

/-- Sort key of `sorted(successful, key=lambda x: x.avg_duration or float("inf"))`
in the sync `_create_summary`: Python `or` replaces both `None` and the
falsy `0.0` by `+∞`. -/
def speedKeyB (r : ModelTestResultB) : WithTop ℚ :=
  match r.avg_duration with
  | some d => if d = 0 then ⊤ else (d : WithTop ℚ)
  | none => ⊤

/-- Sort key of the sync quality ranking: `x.avg_embedding_dim or 0`. -/
def qualityKeyB (r : ModelTestResultB) : ℚ :=
  match r.avg_embedding_dim with
  | some d => if d = 0 then 0 else d
  | none => 0

/-- Ranking entry built by both loops of the sync `_create_summary`. -/
def rankEntryB (rank : Nat) (r : ModelTestResultB) : RankEntryB :=
  { rank := rank
    model := r.model
    avg_duration := r.avg_duration
    embedding_dim := r.avg_embedding_dim
    tokens_per_second := r.avg_tokens_per_second }

/-- `EmbeddingTester._create_summary` (sync variant).  Python's `sorted`
is a stable sort, modelled by `List.insertionSort`; `reverse=True` keeps
the original order of tied elements as well. -/
def createSummaryB (results : List ModelTestResultB) : TestSummaryB :=
  let successful := results.filter (fun r => r.status == "SUCCESS")
  let rankingBySpeed :=
    if successful.isEmpty then []
    else
      (List.insertionSort (keyRel speedKeyB) successful).enum.map
        (fun p => rankEntryB (p.1 + 1) p.2)
  let rankingByQuality :=
    if successful.isEmpty then []
    else
      (List.insertionSort (fun a b => qualityKeyB b ≤ qualityKeyB a) successful).enum.map
        (fun p => rankEntryB (p.1 + 1) p.2)
  { total_models := results.length
    successful_models := successful.length
    failed_models := results.length - successful.length
    ranking_by_speed := rankingBySpeed
    ranking_by_quality := rankingByQuality }

/-- `TestReport` (sync variant). -/
structure TestReportB where
  timestamp : String
  ollama_url : String
  config : TestConfigB
  results : List ModelTestResultB
  summary : TestSummaryB
deriving DecidableEq

/-- The `ModelTestResult` the sync orchestrator builds when `test_model`
raises (`except Exception as e` branch of `run_tests`). -/
def errorResultB (cfg : TestConfigB) (model : String) (e : SyncExc) : ModelTestResultB :=
  { model := model
    status := "ERROR"
    total_tests := cfg.tests_per_model
    successful_tests := 0
    error := some e.msg }

/-- Result appended for one model by the `for model in models` loop of the
sync `run_tests`. -/
def convertB (cfg : TestConfigB) (runner : String → Except SyncExc ModelTestResultB)
    (m : String) : ModelTestResultB :=
  match runner m with
  | Except.ok r => r
  | Except.error e => errorResultB cfg m e

/-- `EmbeddingTester.run_tests` (sync variant).  `tagsAtts` is the attempt
stream of the liveness probe (`health_check` → `GET /api/tags`); `runner`
stands for the `test_model` call of each model, whose exceptions the
`try`/`except Exception` converts into an `ERROR` result; `models` is the
already resolved model list and `now` the wall-clock timestamp. -/
def runTestsB (cfg : TestConfigB) (tagsAtts : Nat → SyncAttempt)
    (runner : String → Except SyncExc ModelTestResultB) (models : List String)
    (now : String) : Except SyncExc TestReportB :=
  match healthCheckB cfg.max_retries tagsAtts with
  | Except.error e => Except.error e
  | Except.ok false =>
      Except.error (SyncExc.ollamaConnectionError
        ("Ollama is not available at " ++ cfg.ollama_url))
  | Except.ok true =>
    let results := models.foldl (fun acc m => acc ++ [convertB cfg runner m]) []
    Except.ok
      { timestamp := now
        ollama_url := cfg.ollama_url
        config := cfg
        results := results
        summary := createSummaryB results }


/-! ### Generic list lemmas for the orchestrator loops -/

theorem foldl_append_eq_map {γ δ : Type} (g : γ → δ) :
    ∀ (l : List γ) (acc : List δ),
      l.foldl (fun acc m => acc ++ [g m]) acc = acc ++ l.map g
  | [], acc => by simp
  | x :: l, acc => by
    simp only [List.foldl_cons, List.map_cons]
    rw [foldl_append_eq_map g l (acc ++ [g x])]
    simp

theorem length_filter_add_length_filter_not {γ : Type} (p : γ → Bool) :
    ∀ l : List γ, (l.filter p).length + (l.filter (fun a => !p a)).length = l.length
  | [] => rfl
  | x :: l => by
    have ih := length_filter_add_length_filter_not p l
    by_cases h : p x
    · simp [List.filter_cons, h]
      omega
    · simp [List.filter_cons, h]
      omega

theorem collectE_ok_length {ε β : Type} (f : Nat → Except ε β) :
    ∀ (n : Nat) (l : List β), collectE f n = Except.ok l → l.length = n
  | 0, l, h => by
    simp only [collectE] at h
    cases h
    rfl
  | n + 1, l, h => by
    simp only [collectE] at h
    cases hc : collectE f n with
    | error e => rw [hc] at h; cases h
    | ok l' =>
      rw [hc] at h
      cases hf : f n with
      | error e => rw [hf] at h; cases h
      | ok b =>
        rw [hf] at h
        cases h
        simp [collectE_ok_length f n l' hc]

theorem collectE_ok_mem {ε β : Type} (f : Nat → Except ε β) :
    ∀ (n : Nat) (l : List β), collectE f n = Except.ok l →
      ∀ b ∈ l, ∃ i, i < n ∧ f i = Except.ok b
  | 0, l, h => by
    simp only [collectE] at h
    cases h
    intro b hb
    exact absurd hb (List.not_mem_nil b)
  | n + 1, l, h => by
    simp only [collectE] at h
    cases hc : collectE f n with
    | error e => rw [hc] at h; cases h
    | ok l' =>
      rw [hc] at h
      cases hf : f n with
      | error e => rw [hf] at h; cases h
      | ok b' =>
        rw [hf] at h
        cases h
        intro b hb
        rcases List.mem_append.mp hb with hb | hb
        · rcases collectE_ok_mem f n l' hc b hb with ⟨i, hi, hfi⟩
          exact ⟨i, Nat.lt_succ_of_lt hi, hfi⟩
        · rcases List.mem_singleton.mp hb with rfl
          exact ⟨n, Nat.lt_succ_self n, hf⟩

/-! ### Helper predicates and auxiliary lemmas for the claims -/

instance {ε α : Type} [DecidableEq ε] [DecidableEq α] : DecidableEq (Except ε α) := fun x y =>
  match x, y with
  | Except.ok a, Except.ok b =>
    if h : a = b then Decidable.isTrue (by rw [h])
    else Decidable.isFalse (by intro hc; cases hc; exact h rfl)
  | Except.error a, Except.error b =>
    if h : a = b then Decidable.isTrue (by rw [h])
    else Decidable.isFalse (by intro hc; cases hc; exact h rfl)
  | Except.ok _, Except.error _ => Decidable.isFalse (by intro hc; cases hc)
  | Except.error _, Except.ok _ => Decidable.isFalse (by intro hc; cases hc)

/-- An async attempt that the retry loop accepts: HTTP status 200. -/
def attemptHits200 (a : AsyncAttempt) : Bool :=
  match a.res with
  | AResult.http s _ _ => s == 200
  | _ => false

/-- The embedding carried by an attempt's response (`[]` for exceptions). -/
def embOf (a : AsyncAttempt) : List ℚ :=
  match a.res with
  | AResult.http _ _ e => e
  | _ => []

/-- Total wall-clock cost of `k` consecutive failed attempts of the async
retry loop starting at attempt `i`: each attempt's latency plus the
`2 ^ attempt` exponential-backoff sleep that follows it. -/
def backoffSum (atts : Nat → AsyncAttempt) (i : Nat) : Nat → ℚ
  | 0 => 0
  | k + 1 => (atts i).latency + 2 ^ i + backoffSum atts (i + 1) k

/-- Recognizer for the sync module's `OllamaConnectionError`. -/
def isConnError : SyncExc → Bool
  | SyncExc.ollamaConnectionError _ => true
  | _ => false

/-- The sync `run_tests` outcome is an `OllamaConnectionError` (in
particular it produced no report, hence no Model Results). -/
def failsWithConnError (x : Except SyncExc TestReportB) : Bool :=
  match x with
  | Except.error e => isConnError e
  | Except.ok _ => false

theorem classifyAttempt_of_hits200 (timeout : Nat) (a : AsyncAttempt)
    (h : attemptHits200 a = true) :
    classifyAttempt timeout a.res = Except.ok (embOf a) := by
  obtain ⟨lat, res⟩ := a
  cases res with
  | http s text emb =>
    have hs : s = 200 := by simpa [attemptHits200] using h
    subst hs
    simp [classifyAttempt, embOf]
  | timeoutExc => simp [attemptHits200] at h
  | httpExc m => simp [attemptHits200] at h
  | otherExc m => simp [attemptHits200] at h

theorem classifyAttempt_of_misses200 (timeout : Nat) (a : AsyncAttempt)
    (h : attemptHits200 a = false) :
    ∃ m, classifyAttempt timeout a.res = Except.error m := by
  obtain ⟨lat, res⟩ := a
  cases res with
  | http s text emb =>
    have hs : ¬ s = 200 := by simpa [attemptHits200] using h
    exact ⟨"HTTP " ++ toString s ++ ": " ++ text.take 200, by simp [classifyAttempt, hs]⟩
  | timeoutExc => exact ⟨"Timeout after " ++ toString timeout ++ "s", rfl⟩
  | httpExc m => exact ⟨"HTTP Error: " ++ m, rfl⟩
  | otherExc m => exact ⟨"Unexpected error: " ++ m, rfl⟩

theorem makeRequestAux_error_conn (atts : Nat → SyncAttempt) :
    ∀ (fuel i : Nat) (elapsed : ℚ) (e : SyncExc),
      (makeRequestAux atts fuel i elapsed).1 = Except.error e → isConnError e = true
  | 0, _, _, e, h => by
    simp only [makeRequestAux] at h
    cases h
    rfl
  | 1, i, elapsed, e, h => by
    simp only [makeRequestAux] at h
    cases hd : doRequestB (atts i).res with
    | ok r => rw [hd] at h; cases h
    | error m =>
      rw [hd] at h
      cases h
      rfl
  | fuel + 2, i, elapsed, e, h => by
    simp only [makeRequestAux] at h
    cases hd : doRequestB (atts i).res with
    | ok r => rw [hd] at h; cases h
    | error m =>
      rw [hd] at h
      exact makeRequestAux_error_conn atts (fuel + 1) (i + 1)
        (elapsed + (atts i).latency + tenacityWait (i + 1)) e h

/-! ### Claim theorems -/

/-- Concrete attempt stream in which every sync attempt raises a
retryable `requests.RequestException`. -/
def c1Atts : Nat → SyncAttempt :=
  fun _ => { latency := 1, res := SyncARes.reqExc "Connection refused" }

/-- C1 counterexample: with every attempt raising a retryable
`requests.RequestException`, the retries are exhausted,
`_make_request` raises `OllamaConnectionError`, and the sync
`test_single_embedding` does *not* return a measurement — it propagates
the exception, contradicting the claim that the prober never raises. -/
theorem c1_counterexample :
    testSingleEmbeddingB 3 120 c1Atts "all-minilm:l6-v2" "hello"
      = Except.error (SyncExc.ollamaConnectionError connFailMsg) := by
  rfl

/-- C1 (amended): the async prober is a total function into measurements;
the sync prober captures `requests.RequestException` and `TimeoutError`
into a failed measurement, and the only exception that can escape it is
the `OllamaConnectionError` produced by exhausted retries (which the
orchestrator's per-model `except` then converts into an `ERROR` result). -/
theorem c1_prober_capture (maxRetries timeout : Nat) (atts : Nat → SyncAttempt)
    (model text : String) (e : SyncExc)
    (h : testSingleEmbeddingB maxRetries timeout atts model text = Except.error e) :
    isConnError e = true := by
  simp only [testSingleEmbeddingB] at h
  cases hm : (makeRequestB maxRetries atts).1 with
  | ok r => rw [hm] at h; cases h
  | error e' =>
    rw [hm] at h
    cases e' with
    | requestException m => cases h
    | timeoutError m => cases h
    | ollamaConnectionError m =>
      cases h
      rfl

/-- C1 witness: the amended statement applied to the concrete exhausted-
retries run. -/
theorem c1_prober_capture_witness :
    testSingleEmbeddingB 3 120 c1Atts "all-minilm:l6-v2" "hi"
        = Except.error (SyncExc.ollamaConnectionError connFailMsg)
      ∧ isConnError (SyncExc.ollamaConnectionError connFailMsg) = true :=
  ⟨rfl, c1_prober_capture 3 120 c1Atts "all-minilm:l6-v2" "hi" _ rfl⟩

theorem getEmbeddingAux_first_success (atts : Nat → AsyncAttempt) (timeout : Nat) :
    ∀ (k : Nat) (fuel i : Nat) (elapsed : ℚ), k < fuel →
      (∀ j, j < k → attemptHits200 (atts (i + j)) = false) →
      attemptHits200 (atts (i + k)) = true →
      getEmbeddingAux atts timeout fuel i elapsed
        = (some (embOf (atts (i + k))),
           elapsed + backoffSum atts i k + (atts (i + k)).latency, none)
  | 0, fuel, i, elapsed, hk, _, hsucc => by
    rw [Nat.add_zero] at hsucc
    have hcl := classifyAttempt_of_hits200 timeout (atts i) hsucc
    match fuel, hk with
    | 1, _ => simp [getEmbeddingAux, hcl, backoffSum]
    | f + 2, _ => simp [getEmbeddingAux, hcl, backoffSum]
  | k + 1, fuel, i, elapsed, hk, hfail, hsucc => by
    have h0 : attemptHits200 (atts i) = false := by
      have := hfail 0 (by omega)
      rwa [Nat.add_zero] at this
    obtain ⟨m, hm⟩ := classifyAttempt_of_misses200 timeout (atts i) h0
    obtain ⟨f, rfl⟩ : ∃ f, fuel = f + 2 := ⟨fuel - 2, by omega⟩
    have ih := getEmbeddingAux_first_success atts timeout k (f + 1) (i + 1)
      (elapsed + (atts i).latency + 2 ^ i) (by omega)
      (fun j hj => by
        have := hfail (j + 1) (by omega)
        rwa [show i + (j + 1) = i + 1 + j by omega] at this)
      (by rwa [show i + 1 + k = i + (k + 1) by omega])
    rw [show i + 1 + k = i + (k + 1) by omega] at ih
    simp only [getEmbeddingAux, hm, ih]
    refine congrArg (fun q => (some (embOf (atts (i + (k + 1)))), q,
      (none : Option String))) ?_
    simp [backoffSum]
    ring

/-- Concrete async attempt stream: HTTP 200 with an empty vector. -/
def c9Atts : Nat → AsyncAttempt :=
  fun _ => { latency := 2, res := AResult.http 200 "" [] }

/-- C9: in the async variant, an HTTP 200 answer carrying an empty vector
yields a measurement with `success = false` and *no* error description
(`error_message = None`). -/
theorem c9_empty_vector_failure (maxRetries timeout : Nat)
    (atts : Nat → AsyncAttempt) (text : String)
    (hr : 1 ≤ maxRetries)
    (h0 : ∃ t, (atts 0).res = AResult.http 200 t []) :
    (testSingleEmbeddingA maxRetries timeout atts text).success = false
      ∧ (testSingleEmbeddingA maxRetries timeout atts text).error_message = none := by
  obtain ⟨t, ht⟩ := h0
  have hs : attemptHits200 (atts 0) = true := by simp [attemptHits200, ht]
  have h := getEmbeddingAux_first_success atts timeout 0 maxRetries 0 0
    (by omega) (fun j hj => absurd hj (by omega)) (by simpa using hs)
  have hemb : embOf (atts 0) = [] := by simp [embOf, ht]
  simp only [Nat.add_zero] at h
  rw [hemb] at h
  simp [testSingleEmbeddingA, getEmbeddingA, h]

/-- C9 witness: the concrete empty-vector 200 response. -/
theorem c9_empty_vector_failure_witness :
    (testSingleEmbeddingA 3 180 c9Atts "t").success = false
      ∧ (testSingleEmbeddingA 3 180 c9Atts "t").error_message = none :=
  c9_empty_vector_failure 3 180 c9Atts "t" (by omega) ⟨"", rfl⟩

/-- C10: in the async variant, the duration recorded for a probe whose
first `k` attempts miss (non-200 status or exception) and whose attempt
`k` returns HTTP 200 is cumulative: the latencies of all `k + 1` attempts
plus the `2 ^ attempt` exponential-backoff sleeps after each failed
attempt — not the latency of the successful attempt alone. -/
theorem c10_cumulative_duration (retries timeout : Nat)
    (atts : Nat → AsyncAttempt) (k : Nat)
    (hk : k < retries)
    (hfail : ∀ j, j < k → attemptHits200 (atts j) = false)
    (hsucc : attemptHits200 (atts k) = true) :
    getEmbeddingA retries timeout atts
      = (some (embOf (atts k)), backoffSum atts 0 k + (atts k).latency, none) := by
  have h := getEmbeddingAux_first_success atts timeout k retries 0 0 hk
    (fun j hj => by simpa using hfail j hj) (by simpa using hsucc)
  simpa [getEmbeddingA] using h

/-- Concrete async stream: attempt 0 times out after 5s, attempt 1
answers 200 after 7s; the recorded duration is 5 + 1 + 7 = 13 (the 1 is
the `2 ^ 0` backoff sleep). -/
def c10Atts : Nat → AsyncAttempt :=
  fun n => if n = 0 then { latency := 5, res := AResult.timeoutExc }
           else { latency := 7, res := AResult.http 200 "" [3] }

/-- C10 witness: cumulative duration on the concrete retried probe. -/
theorem c10_cumulative_duration_witness :
    (getEmbeddingA 3 180 c10Atts).2.1 = 13 := by
  rw [c10_cumulative_duration 3 180 c10Atts 1 (by omega)
    (fun j hj => by
      have : j = 0 := by omega
      subst this
      rfl)
    rfl]
  norm_num [backoffSum, c10Atts]

/-- C2: if the pre-flight liveness check does not come back healthy —
whether `health_check` returns `False` or itself raises the
`OllamaConnectionError` of exhausted retries — the sync `run_tests` fails
with an `OllamaConnectionError` and returns no report, so zero Model
Results are produced and no per-model testing is reached. -/
theorem c2_liveness_failfast (cfg : TestConfigB) (tagsAtts : Nat → SyncAttempt)
    (runner : String → Except SyncExc ModelTestResultB) (models : List String)
    (now : String)
    (h : healthCheckB cfg.max_retries tagsAtts ≠ Except.ok true) :
    failsWithConnError (runTestsB cfg tagsAtts runner models now) = true := by
  simp only [runTestsB, healthCheckB]
  simp only [healthCheckB] at h
  cases hm : (makeRequestB cfg.max_retries tagsAtts).1 with
  | ok r =>
    simp only [hm] at h ⊢
    cases hs : (r.status == 200) with
    | true => simp only [hs] at h; exact absurd rfl h
    | false => simp only [hs]; rfl
  | error e =>
    have hc : isConnError e = true :=
      makeRequestAux_error_conn tagsAtts cfg.max_retries 0 0 e hm
    simp only [hm] at h ⊢
    cases e with
    | requestException m => rfl
    | timeoutError m => simp [isConnError] at hc
    | ollamaConnectionError m => rfl

/-- Concrete liveness probe stream answering HTTP 503 on every attempt. -/
def c2Tags : Nat → SyncAttempt :=
  fun _ => { latency := 0, res := SyncARes.ok { status := 503 } }

/-- Degenerate runner, never reached in the witness run. -/
def c2Runner : String → Except SyncExc ModelTestResultB :=
  fun _ => Except.ok default

/-- C2 witness: a 503-answering service makes the whole run fail with a
connection error. -/
theorem c2_liveness_failfast_witness :
    failsWithConnError (runTestsB {} c2Tags c2Runner ["all-minilm:l6-v2"] "t") = true :=
  c2_liveness_failfast {} c2Tags c2Runner ["all-minilm:l6-v2"] "t" (by decide)

/-- C3: once the liveness check passes, the sync orchestrator produces a
report containing exactly one Model Result per configured model, in the
configured order (`results = models.map …`); a model whose runner raised
is converted into a result with status `"ERROR"`, zero successes, and the
exception message as the error summary, while the remaining models are
still processed. -/
theorem c3_per_model_isolation (cfg : TestConfigB) (tagsAtts : Nat → SyncAttempt)
    (runner : String → Except SyncExc ModelTestResultB) (models : List String)
    (now : String)
    (h : healthCheckB cfg.max_retries tagsAtts = Except.ok true) :
    runTestsB cfg tagsAtts runner models now =
      Except.ok
        { timestamp := now
          ollama_url := cfg.ollama_url
          config := cfg
          results := models.map (convertB cfg runner)
          summary := createSummaryB (models.map (convertB cfg runner)) }
    ∧ (models.map (convertB cfg runner)).length = models.length
    ∧ (∀ m r, runner m = Except.ok r → convertB cfg runner m = r)
    ∧ ∀ m e, runner m = Except.error e →
        convertB cfg runner m = errorResultB cfg m e
        ∧ (errorResultB cfg m e).status = "ERROR"
        ∧ (errorResultB cfg m e).successful_tests = 0
        ∧ (errorResultB cfg m e).error = some (SyncExc.msg e) := by
  refine ⟨?_, by simp, ?_, ?_⟩
  · simp only [runTestsB, h]
    rw [foldl_append_eq_map (convertB cfg runner) models []]
    simp
  · intro m r hr
    simp [convertB, hr]
  · intro m e he
    exact ⟨by simp [convertB, he], rfl, rfl, rfl⟩

/-- Concrete liveness probe stream answering HTTP 200. -/
def c3Tags : Nat → SyncAttempt :=
  fun _ => { latency := 0, res := SyncARes.ok { status := 200 } }

/-- Concrete runner that raises for the model `"bad"` and succeeds for
every other model. -/
def c3Runner : String → Except SyncExc ModelTestResultB :=
  fun m => if m = "bad" then Except.error (SyncExc.ollamaConnectionError connFailMsg)
           else Except.ok default

/-- C3 witness: the orchestrator completes a run over a good and a
raising model. -/
theorem c3_per_model_isolation_witness :
    (runTestsB {} c3Tags c3Runner ["good", "bad"] "t").isOk = true := by
  rw [(c3_per_model_isolation {} c3Tags c3Runner ["good", "bad"] "t" (by decide)).1]
  rfl

theorem isEmpty_false_of_mem {γ : Type} {a : γ} {l : List γ} (h : a ∈ l) :
    l.isEmpty = false := by
  cases l with
  | nil => cases h
  | cons x xs => rfl

theorem length_pos_of_isEmpty_false {γ : Type} {l : List γ} (h : l.isEmpty = false) :
    0 < l.length := by
  cases l with
  | nil => cases h
  | cons x xs => simp

theorem length_eq_zero_of_isEmpty {γ : Type} {l : List γ} (h : l.isEmpty = true) :
    l.length = 0 := by
  cases l with
  | nil => rfl
  | cons x xs => cases h

/-- C4: for the async variant, every Model Result — those aggregated by
`test_model` for any behaviour of the network, and every result appearing
in a report assembled by `run_tests` (including the `ERROR` results its
`except` branch fabricates) — satisfies
`successful_tests + failed_tests = total_tests`. -/
theorem c4_partition_invariant :
    (∀ (cfg : TestConfigA) (beh : Nat → Nat → AsyncAttempt) (model : String)
        (sdev : List ℚ → ℚ),
      (testModelA cfg beh model sdev).successful_tests
          + (testModelA cfg beh model sdev).failed_tests
        = (testModelA cfg beh model sdev).total_tests)
    ∧ ∀ (cfg : TestConfigA) (dI cR hOk : Bool)
        (runner : String → Except String ModelTestResultA) (models : List String)
        (now : String) (dur : ℚ) (report : TestReportA),
        (∀ m r, runner m = Except.ok r →
          r.successful_tests + r.failed_tests = r.total_tests) →
        runTestsA cfg dI cR hOk runner models now dur = Except.ok report →
        ∀ r ∈ report.results,
          r.successful_tests + r.failed_tests = r.total_tests := by
  constructor
  · intro cfg beh model sdev
    have hpart := length_filter_add_length_filter_not
      (fun m : EmbeddingMetricsA => m.success) (metricsA cfg beh)
    simp only [testModelA, testModelFullA]
    split
    next h =>
      have h0 := length_eq_zero_of_isEmpty h
      simp only [failedResultA]
      omega
    next h =>
      simp only [successResultA]
      omega
  · intro cfg dI cR hOk runner models now dur report hrunner hrep
    simp only [runTestsA] at hrep
    split at hrep
    · cases hrep
    · split at hrep
      · cases hrep
      · split at hrep
        · cases hrep
        · cases hrep
          intro r hr
          simp only [foldl_append_eq_map (convertA cfg runner) models [],
            List.nil_append] at hr
          rcases List.mem_map.mp hr with ⟨m, _, rfl⟩
          unfold convertA
          cases hre : runner m with
          | ok x => exact hrunner m x hre
          | error e => simp [errorResultA]

/-- Runner that always raises, exercising the orchestrator's `except`
branch. -/
def c4Runner : String → Except String ModelTestResultA :=
  fun _ => Except.error "boom"

/-- C4 witness: the invariant holds on the `ERROR` result fabricated for
a raising runner. -/
theorem c4_partition_invariant_witness :
    (errorResultA {} "m" "boom").successful_tests
        + (errorResultA {} "m" "boom").failed_tests
      = (errorResultA {} "m" "boom").total_tests :=
  c4_partition_invariant.2 {} true true true c4Runner ["m"] "t" 0
    { timestamp := "t", config := {}, docker_status := some (true, true),
      results := [errorResultA {} "m" "boom"],
      summary := createSummaryA [errorResultA {} "m" "boom"], duration_seconds := 0 }
    (fun _ _ hr => nomatch hr) rfl (errorResultA {} "m" "boom")
    (List.mem_singleton.mpr rfl)

theorem testSingleEmbeddingA_success_dim (mr t : Nat) (atts : Nat → AsyncAttempt)
    (text : String)
    (h : (testSingleEmbeddingA mr t atts text).success = true) :
    ∃ d : Nat, (testSingleEmbeddingA mr t atts text).embedding_dim = some (d + 1) := by
  cases hg : (getEmbeddingA mr t atts).1 with
  | none =>
    simp only [testSingleEmbeddingA, hg] at h
    exact Bool.noConfusion h
  | some l =>
    cases l with
    | nil =>
      simp only [testSingleEmbeddingA, hg] at h
      exact Bool.noConfusion h
    | cons x xs =>
      refine ⟨xs.length, ?_⟩
      simp [testSingleEmbeddingA, hg]

theorem testSingleEmbeddingB_ok_dim (mr t : Nat) (atts : Nat → SyncAttempt)
    (model text : String) (res : EmbeddingResultB)
    (h : testSingleEmbeddingB mr t atts model text = Except.ok res)
    (hs : res.success = true) :
    ∃ d, res.embedding_dim = some d := by
  simp only [testSingleEmbeddingB] at h
  cases hm : (makeRequestB mr atts).1 with
  | ok resp =>
    simp only [hm] at h
    cases h
    exact ⟨_, rfl⟩
  | error e =>
    simp only [hm] at h
    cases e with
    | requestException m => cases h; simp at hs
    | timeoutError m => cases h; simp at hs
    | ollamaConnectionError m => cases h

/-- Sync configuration performing a single sample per model. -/
def c5Cfg : TestConfigB := { tests_per_model := 1 }

/-- Embedding endpoint answering HTTP 200 with an *empty* vector. -/
def c5Emb : Nat → Nat → SyncAttempt :=
  fun _ _ => { latency := 1, res := SyncARes.ok { status := 200, embedding := [] } }

/-- `/api/show` endpoint answering normally. -/
def c5Info : Nat → SyncAttempt :=
  fun _ => { latency := 1, res := SyncARes.ok { status := 200 } }

/-- The Model Result of the empty-embedding run. -/
def c5Res : ModelTestResultB :=
  ((testModelB c5Cfg c5Emb c5Info "m" (fun _ => 0)).toOption).getD default

/-- C5 counterexample: in the sync variant an HTTP 200 answer with an
empty vector counts as a *success* with dimensionality `0`; the Model
Result then has `successful_tests = 1` while its mean-dimensionality
statistic is absent — refuting the claimed "present if and only if
`successful_tests > 0`". -/
theorem c5_counterexample :
    testModelB c5Cfg c5Emb c5Info "m" (fun _ => 0) = Except.ok c5Res
      ∧ c5Res.successful_tests = 1
      ∧ c5Res.avg_embedding_dim = none := ⟨rfl, rfl, rfl⟩

theorem c5_syncSuccess_aux (cfg : TestConfigB) (embedAtts : Nat → Nat → SyncAttempt)
    (model : String) (sdev : List ℚ → ℚ) (results : List EmbeddingResultB)
    (hmem : ∀ b ∈ results, ∃ i, i < cfg.tests_per_model ∧
      testSingleEmbeddingB cfg.max_retries cfg.timeout (embedAtts i) model (textAt i)
        = Except.ok b)
    (hNonempty : ¬ (results.filter (fun r => r.success)).isEmpty = true)
    (info : Option RespB) :
    ((successResultB cfg sdev model results (results.filter (fun r => r.success))
        info).avg_duration.isSome = true
      ↔ 0 < (successResultB cfg sdev model results (results.filter (fun r => r.success))
        info).successful_tests)
    ∧ ((successResultB cfg sdev model results (results.filter (fun r => r.success))
        info).min_duration.isSome = true
      ↔ 0 < (successResultB cfg sdev model results (results.filter (fun r => r.success))
        info).successful_tests)
    ∧ ((successResultB cfg sdev model results (results.filter (fun r => r.success))
        info).max_duration.isSome = true
      ↔ 0 < (successResultB cfg sdev model results (results.filter (fun r => r.success))
        info).successful_tests)
    ∧ ((successResultB cfg sdev model results (results.filter (fun r => r.success))
        info).std_duration.isSome = true
      ↔ 0 < (successResultB cfg sdev model results (results.filter (fun r => r.success))
        info).successful_tests)
    ∧ ((successResultB cfg sdev model results (results.filter (fun r => r.success))
        info).avg_embedding_dim.isSome = true
      ↔ ∃ mm ∈ (successResultB cfg sdev model results
            (results.filter (fun r => r.success)) info).individual_results,
          mm.success = true ∧ mm.embedding_dim ≠ some 0) := by
  have hpos : 0 < (results.filter (fun r => r.success)).length :=
    length_pos_of_isEmpty_false (by rwa [Bool.not_eq_true] at hNonempty)
  refine ⟨by simp [successResultB, hpos], by simp [successResultB, hpos],
    by simp [successResultB, hpos], by simp [successResultB, hpos], ?_⟩
  simp only [successResultB]
  constructor
  · intro hiso
    by_cases hD : ((results.filter (fun r => r.success)).filterMap (fun r =>
        match r.embedding_dim with
        | some d => if d = 0 then none else some (d : ℚ)
        | none => none)).isEmpty
    · rw [if_pos hD] at hiso
      cases hiso
    · cases hl : (results.filter (fun r => r.success)).filterMap (fun r =>
          match r.embedding_dim with
          | some d => if d = 0 then none else some (d : ℚ)
          | none => none) with
      | nil => rw [hl] at hD; exact absurd rfl hD
      | cons q qs =>
        have hq : q ∈ (results.filter (fun r => r.success)).filterMap (fun r =>
            match r.embedding_dim with
            | some d => if d = 0 then none else some (d : ℚ)
            | none => none) := by
          rw [hl]
          exact List.mem_cons_self q qs
        obtain ⟨mm, hmmF, hf⟩ := List.mem_filterMap.mp hq
        refine ⟨mm, (List.mem_filter.mp hmmF).1, (List.mem_filter.mp hmmF).2, ?_⟩
        intro hzero
        rw [hzero] at hf
        simp at hf
  · rintro ⟨mm, hmmR, hs, hne⟩
    have hmmF : mm ∈ results.filter (fun r => r.success) :=
      List.mem_filter.mpr ⟨hmmR, hs⟩
    obtain ⟨i, _, hok⟩ := hmem mm hmmR
    obtain ⟨dd, hdd⟩ := testSingleEmbeddingB_ok_dim cfg.max_retries cfg.timeout
      (embedAtts i) model (textAt i) mm hok hs
    have hddne : ¬ dd = 0 := by
      intro hz
      rw [hz] at hdd
      exact hne hdd
    have hqmem : ((dd : ℚ)) ∈ (results.filter (fun r => r.success)).filterMap (fun r =>
        match r.embedding_dim with
        | some d => if d = 0 then none else some (d : ℚ)
        | none => none) :=
      List.mem_filterMap.mpr ⟨mm, hmmF, by rw [hdd]; simp [hddne]⟩
    rw [if_neg (by rw [isEmpty_false_of_mem hqmem]; intro hc; cases hc)]
    rfl

/-- C5 (amended): duration statistics (and, in the async variant, the
median) are present iff `successful_tests > 0`, and in the async variant
the mean dimensionality as well; in the sync variant the mean
dimensionality is present iff some successful measurement reported a
*non-zero* dimensionality (an empty embedding is accepted as a success
with dimensionality `0` and excluded from the statistic). -/
theorem c5_stats_presence :
    (∀ (cfg : TestConfigA) (beh : Nat → Nat → AsyncAttempt) (model : String)
        (sdev : List ℚ → ℚ),
      ((testModelA cfg beh model sdev).avg_duration.isSome = true
          ↔ 0 < (testModelA cfg beh model sdev).successful_tests)
      ∧ ((testModelA cfg beh model sdev).min_duration.isSome = true
          ↔ 0 < (testModelA cfg beh model sdev).successful_tests)
      ∧ ((testModelA cfg beh model sdev).max_duration.isSome = true
          ↔ 0 < (testModelA cfg beh model sdev).successful_tests)
      ∧ ((testModelA cfg beh model sdev).median_duration.isSome = true
          ↔ 0 < (testModelA cfg beh model sdev).successful_tests)
      ∧ ((testModelA cfg beh model sdev).std_duration.isSome = true
          ↔ 0 < (testModelA cfg beh model sdev).successful_tests)
      ∧ ((testModelA cfg beh model sdev).avg_embedding_dim.isSome = true
          ↔ 0 < (testModelA cfg beh model sdev).successful_tests))
    ∧ ∀ (cfg : TestConfigB) (embedAtts : Nat → Nat → SyncAttempt)
        (infoAtts : Nat → SyncAttempt) (model : String) (sdev : List ℚ → ℚ)
        (r : ModelTestResultB),
        testModelB cfg embedAtts infoAtts model sdev = Except.ok r →
        (r.avg_duration.isSome = true ↔ 0 < r.successful_tests)
        ∧ (r.min_duration.isSome = true ↔ 0 < r.successful_tests)
        ∧ (r.max_duration.isSome = true ↔ 0 < r.successful_tests)
        ∧ (r.std_duration.isSome = true ↔ 0 < r.successful_tests)
        ∧ (r.avg_embedding_dim.isSome = true
            ↔ ∃ mm ∈ r.individual_results,
                mm.success = true ∧ mm.embedding_dim ≠ some 0) := by
  constructor
  · intro cfg beh model sdev
    simp only [testModelA, testModelFullA]
    split
    next h => simp [failedResultA]
    next h =>
      rw [Bool.not_eq_true] at h
      have hpos : 0 < ((metricsA cfg beh).filter (fun m => m.success)).length :=
        length_pos_of_isEmpty_false h
      obtain ⟨m0, hm0⟩ : ∃ m0, m0 ∈ (metricsA cfg beh).filter (fun m => m.success) :=
        List.exists_mem_of_length_pos hpos
      have hm0s : m0.success = true := (List.mem_filter.mp hm0).2
      have hm0m : m0 ∈ metricsA cfg beh := (List.mem_filter.mp hm0).1
      obtain ⟨i, _, hfe⟩ := List.mem_map.mp hm0m
      rw [← hfe] at hm0s
      obtain ⟨d, hdim⟩ := testSingleEmbeddingA_success_dim cfg.max_retries cfg.timeout
        (beh (cfg.warmup_requests + i)) (textAt i) hm0s
      rw [hfe] at hdim
      have hmem : ((d + 1 : Nat) : ℚ) ∈ ((metricsA cfg beh).filter
          (fun m => m.success)).filterMap (fun m =>
            match m.embedding_dim with
            | some d => if d = 0 then none else some (d : ℚ)
            | none => none) :=
        List.mem_filterMap.mpr ⟨m0, hm0, by rw [hdim]; simp⟩
      have hde := isEmpty_false_of_mem hmem
      simp [successResultA, hpos, hde]
  · intro cfg embedAtts infoAtts model sdev r hr
    simp only [testModelB] at hr
    cases hc : collectE (fun i => testSingleEmbeddingB cfg.max_retries cfg.timeout
        (embedAtts i) model (textAt i)) cfg.tests_per_model with
    | error e => simp only [hc] at hr; cases hr
    | ok results =>
      simp only [hc] at hr
      have hmem := collectE_ok_mem _ _ _ hc
      by_cases hEmpty : (results.filter (fun r => r.success)).isEmpty = true
      · rw [if_pos hEmpty] at hr
        cases hr
        have hnone : ∀ mm ∈ results, ¬ mm.success = true := by
          intro mm hmm hs
          have hin : mm ∈ results.filter (fun r => r.success) :=
            List.mem_filter.mpr ⟨hmm, hs⟩
          rw [List.isEmpty_iff.mp hEmpty] at hin
          cases hin
        refine ⟨by simp, by simp, by simp, by simp, ?_⟩
        constructor
        · intro hfalse
          simp at hfalse
        · rintro ⟨mm, hmm, hs, _⟩
          exact absurd hs (hnone mm hmm)
      · rw [if_neg hEmpty] at hr
        cases hi : (makeRequestB cfg.max_retries infoAtts).1 with
        | ok info =>
          simp only [hi] at hr
          cases hr
          exact c5_syncSuccess_aux cfg embedAtts model sdev results hmem hEmpty (some info)
        | error e =>
          simp only [hi] at hr
          cases e with
          | requestException m =>
            cases hr
            exact c5_syncSuccess_aux cfg embedAtts model sdev results hmem hEmpty none
          | timeoutError m => cases hr
          | ollamaConnectionError m => cases hr

/-- C5 witness: the amended presence characterization evaluated on the
concrete empty-embedding run (duration statistics present, mean
dimensionality absent, matching the absence of any non-zero-dimensional
success). -/
theorem c5_stats_presence_witness :
    (c5Res.avg_duration.isSome = true ↔ 0 < c5Res.successful_tests)
      ∧ (c5Res.avg_embedding_dim.isSome = true
          ↔ ∃ mm ∈ c5Res.individual_results,
              mm.success = true ∧ mm.embedding_dim ≠ some 0) := by
  have h := c5_stats_presence.2 c5Cfg c5Emb c5Info "m" (fun _ => 0) c5Res rfl
  exact ⟨h.1, h.2.2.2.2⟩

theorem c8_syncAux (cfg : TestConfigB) (sdev : List ℚ → ℚ) (model : String)
    (results : List EmbeddingResultB) (info : Option RespB)
    (h1 : (successResultB cfg sdev model results
      (results.filter (fun r => r.success)) info).successful_tests = 1) :
    (successResultB cfg sdev model results
      (results.filter (fun r => r.success)) info).std_duration = some 0 := by
  simp only [successResultB] at h1 ⊢
  have hlen : ((results.filter (fun r => r.success)).map
      (fun r => r.duration)).length = 1 := by
    simp [h1]
  obtain ⟨d, hd⟩ := List.length_eq_one.mp hlen
  rw [hd]
  simp [calculateStatsB]

/-- C8: a Model Result with exactly one successful measurement reports a
standard deviation of exactly 0 — in both variants the `statistics.stdev`
call is guarded by `len(durations) > 1` and replaced by `0.0` otherwise. -/
theorem c8_std_single_success :
    (∀ (cfg : TestConfigB) (embedAtts : Nat → Nat → SyncAttempt)
        (infoAtts : Nat → SyncAttempt) (model : String) (sdev : List ℚ → ℚ)
        (r : ModelTestResultB),
      testModelB cfg embedAtts infoAtts model sdev = Except.ok r →
      r.successful_tests = 1 → r.std_duration = some 0)
    ∧ ∀ (cfg : TestConfigA) (beh : Nat → Nat → AsyncAttempt) (model : String)
        (sdev : List ℚ → ℚ),
      (testModelA cfg beh model sdev).successful_tests = 1 →
      (testModelA cfg beh model sdev).std_duration = some 0 := by
  constructor
  · intro cfg embedAtts infoAtts model sdev r hr h1
    simp only [testModelB] at hr
    cases hc : collectE (fun i => testSingleEmbeddingB cfg.max_retries cfg.timeout
        (embedAtts i) model (textAt i)) cfg.tests_per_model with
    | error e => simp only [hc] at hr; cases hr
    | ok results =>
      simp only [hc] at hr
      by_cases hEmpty : (results.filter (fun r => r.success)).isEmpty = true
      · rw [if_pos hEmpty] at hr
        cases hr
        simp at h1
      · rw [if_neg hEmpty] at hr
        cases hi : (makeRequestB cfg.max_retries infoAtts).1 with
        | ok info =>
          simp only [hi] at hr
          cases hr
          exact c8_syncAux cfg sdev model results (some info) h1
        | error e =>
          simp only [hi] at hr
          cases e with
          | requestException m =>
            cases hr
            exact c8_syncAux cfg sdev model results none h1
          | timeoutError m => cases hr
          | ollamaConnectionError m => cases hr
  · intro cfg beh model sdev h1
    simp only [testModelA, testModelFullA] at h1 ⊢
    by_cases hEmpty : ((metricsA cfg beh).filter (fun m => m.success)).isEmpty = true
    · rw [if_pos hEmpty] at h1
      simp [failedResultA] at h1
    · rw [if_neg hEmpty] at h1 ⊢
      simp only [successResultA] at h1 ⊢
      have hlen : (((metricsA cfg beh).filter (fun m => m.success)).map
          (fun m => m.duration)).length = 1 := by
        simp [h1]
      rw [hlen]
      simp

/-- Sync config and streams for a single successful sample. -/
def c8Cfg : TestConfigB := { tests_per_model := 1 }

/-- Embedding endpoint answering 200 with a 2-dimensional vector. -/
def c8Emb : Nat → Nat → SyncAttempt :=
  fun _ _ => { latency := 2, res := SyncARes.ok { status := 200, embedding := [1, 2] } }

/-- `/api/show` endpoint answering normally. -/
def c8Info : Nat → SyncAttempt :=
  fun _ => { latency := 1, res := SyncARes.ok { status := 200 } }

/-- The Model Result of the single-sample run. -/
def c8Res : ModelTestResultB :=
  ((testModelB c8Cfg c8Emb c8Info "m" (fun _ => 0)).toOption).getD default

/-- C8 witness: one successful sample, standard deviation 0. -/
theorem c8_std_single_success_witness :
    c8Res.successful_tests = 1 ∧ c8Res.std_duration = some 0 :=
  ⟨rfl, c8_std_single_success.1 c8Cfg c8Emb c8Info "m" (fun _ => 0) c8Res rfl rfl⟩

theorem flatMap_const {γ δ : Type} (L : List δ) :
    ∀ l : List γ, l.flatMap (fun _ => L) = List.flatten (List.replicate l.length L)
  | [] => rfl
  | x :: xs => by
    simp only [List.flatMap_cons, flatMap_const L xs, List.length_cons,
      List.replicate_succ, List.flatten_cons]

/-- C7: before its timed sample loop the async `test_model` awaits
exactly `warmup_requests` probes, each followed by a 1-second pause (the
trace prefix below), for any network behaviour; and the warm-up probes'
results are discarded — two behaviours that agree on the timed
`get_embedding` calls (indices `≥ warmup_requests`) produce identical
results and traces. -/
theorem c7_warmup_probes :
    (∀ (cfg : TestConfigA) (beh : Nat → Nat → AsyncAttempt) (model : String)
        (sdev : List ℚ → ℚ),
      (testModelFullA cfg beh model sdev).2
        = List.flatten (List.replicate cfg.warmup_requests
            [EventA.probe model (textAt 0), EventA.pause 1])
          ++ (List.range cfg.tests_per_model).flatMap
            (fun i => EventA.probe model (textAt i) ::
              (if i + 1 < cfg.tests_per_model
               then [EventA.pause (cfg.interval_between_tests : ℚ)] else [])))
    ∧ ∀ (cfg : TestConfigA) (b1 b2 : Nat → Nat → AsyncAttempt) (model : String)
        (sdev : List ℚ → ℚ),
        (∀ n, cfg.warmup_requests ≤ n → b1 n = b2 n) →
        testModelFullA cfg b1 model sdev = testModelFullA cfg b2 model sdev := by
  constructor
  · intro cfg beh model sdev
    have hflat := flatMap_const [EventA.probe model (textAt 0), EventA.pause 1]
      (List.range cfg.warmup_requests)
    rw [List.length_range] at hflat
    simp only [testModelFullA]
    split
    · rw [hflat]
    · rw [hflat]
  · intro cfg b1 b2 model sdev h
    have hm : metricsA cfg b1 = metricsA cfg b2 := by
      unfold metricsA
      refine List.map_congr_left ?_
      intro i _
      rw [h (cfg.warmup_requests + i) (Nat.le_add_right _ _)]
    simp only [testModelFullA, hm]

/-- Behaviour whose warm-up call succeeds immediately. -/
def c7B1 : Nat → Nat → AsyncAttempt :=
  fun _ _ => { latency := 1, res := AResult.http 200 "" [1] }

/-- Behaviour identical to `c7B1` except that the warm-up call (call 0)
times out. -/
def c7B2 : Nat → Nat → AsyncAttempt :=
  fun n _ => if n = 0 then { latency := 9, res := AResult.timeoutExc }
             else { latency := 1, res := AResult.http 200 "" [1] }

/-- C7 witness: changing only the warm-up call's outcome leaves the
result and the trace unchanged. -/
theorem c7_warmup_probes_witness :
    testModelFullA {} c7B1 "m" (fun _ => 0) = testModelFullA {} c7B2 "m" (fun _ => 0) :=
  c7_warmup_probes.2 {} c7B1 c7B2 "m" (fun _ => 0)
    (fun n hn => by
      have hne : ¬ n = 0 := by
        intro h0
        subst h0
        exact absurd hn (by decide)
      funext k
      simp [c7B1, c7B2, hne])

theorem enumFrom_map_rank {γ : Type} :
    ∀ (l : List γ) (n : Nat),
      (l.enumFrom n).map (fun p => p.1 + 1) = List.range' (n + 1) l.length
  | [], _ => rfl
  | a :: l, n => by
    simp only [List.enumFrom, List.map_cons, List.length_cons, List.range',
      enumFrom_map_rank l (n + 1)]

theorem enum_map_rank {γ : Type} (l : List γ) :
    l.enum.map (fun p => p.1 + 1) = List.range' 1 l.length :=
  enumFrom_map_rank l 0

/-- A Succeeded result whose mean duration is `0.0`. -/
def c6ResA : ModelTestResultB :=
  { model := "A", status := "SUCCESS", total_tests := 1, successful_tests := 1,
    avg_duration := some 0 }

/-- A Succeeded result with mean duration `1.0`. -/
def c6ResB : ModelTestResultB :=
  { model := "B", status := "SUCCESS", total_tests := 1, successful_tests := 1,
    avg_duration := some 1 }

/-- C6 counterexample: the sort key `x.avg_duration or float("inf")`
treats the falsy mean duration `0.0` like `None`, keying the model as
infinitely slow.  With results `[A (mean 0), B (mean 1)]` the
ranking-by-speed comes out `[B, A]` with mean durations `[1, 0]` — not
non-decreasing by mean duration, refuting the claimed ordering. -/
theorem c6_counterexample :
    ((createSummaryB [c6ResA, c6ResB]).ranking_by_speed.map
        (fun e => (e.model, e.avg_duration)))
      = [("B", some 1), ("A", some 0)]
    ∧ ¬ ((1 : ℚ) ≤ 0) := by
  constructor
  · rfl
  · norm_num

/-- C6 (amended): the sync ranking-by-speed lists exactly the Succeeded
results, each exactly once (a permutation of the `"SUCCESS"` filter),
sorted stably — non-decreasing in the key that maps a mean duration to
itself except that an absent *or zero* mean duration is treated as `+∞`,
with ties keeping the original model order (the sort equals the
lexicographic (key, original position) sort) — and carrying consecutive
1-based ranks. -/
theorem c6_speed_ranking (results : List ModelTestResultB) :
    ((createSummaryB results).ranking_by_speed
        = (stableSortByKey speedKeyB
            (results.filter (fun r => r.status == "SUCCESS"))).enum.map
            (fun p => rankEntryB (p.1 + 1) p.2))
    ∧ (stableSortByKey speedKeyB
        (results.filter (fun r => r.status == "SUCCESS"))).Perm
        (results.filter (fun r => r.status == "SUCCESS"))
    ∧ (stableSortByKey speedKeyB
        (results.filter (fun r => r.status == "SUCCESS"))).Pairwise
        (fun a b => speedKeyB a ≤ speedKeyB b)
    ∧ (createSummaryB results).ranking_by_speed.map (fun e => e.rank)
        = List.range' 1 (results.filter (fun r => r.status == "SUCCESS")).length := by
  have hmain : (createSummaryB results).ranking_by_speed
      = (stableSortByKey speedKeyB
          (results.filter (fun r => r.status == "SUCCESS"))).enum.map
          (fun p => rankEntryB (p.1 + 1) p.2) := by
    simp only [createSummaryB]
    by_cases hS : (results.filter (fun r => r.status == "SUCCESS")).isEmpty = true
    · rw [if_pos hS, List.isEmpty_iff.mp hS]
      rfl
    · rw [if_neg hS, insertionSort_eq_stableSortByKey]
  refine ⟨hmain, stableSortByKey_perm _ _, stableSortByKey_pairwise _ _, ?_⟩
  rw [hmain, List.map_map]
  have hcomp : ((fun e : RankEntryB => e.rank)
      ∘ fun p : Nat × ModelTestResultB => rankEntryB (p.1 + 1) p.2)
      = fun p : Nat × ModelTestResultB => p.1 + 1 := by
    funext p
    rfl
  rw [hcomp, enum_map_rank, (stableSortByKey_perm speedKeyB _).length_eq]

end OllamaBench
